import Mathlib

/-!
# go-batch-api: the batch executor

A shallow embedding of `contract.go` (the payload model) and of `Process` and
`doOperation` of `batch.go`, with the properties of the executor proved over it.

Conventions of the embedding

* A Go `error` is an `Option Error`; `none` is `nil`.
* A Go `(value, error)` result of a library call is an `Except Error value`: the
  call yields either the error or the value.
* A value of type `interface{}` is an element of a type parameter `Any`; a nil
  interface is `none`.
* Go `int` and `uint` are 64 bits wide.  `uint` values live in `Nat` (below `2^64`),
  `int` values in `Int`; the conversion `int(u)` and the increment of an `int` are
  written with their wrap-around.
* Everything outside the process (the network, the backing service, the context, the
  sinks of the logger and of the trace hook) is a state of an arbitrary type `σ`,
  passed explicitly; the library calls that touch it are fields of `Net`.
* `Sys.dispatched` is a ghost log: `doOperation` records the operation it was called
  with, so that "which operations were dispatched, and in which order" can be stated.
-/

set_option autoImplicit false

namespace BatchApi

/-! ## contract.go -/

/-- Go `error` values. -/
abbrev Error := String

/-- Byte streams (`[]byte`). -/
abbrev Bytes := List UInt8

/-- Type `Header` of contract.go. -/
structure Header where
  Name : String := ""
  Value : String := ""
deriving DecidableEq, Repr

/-- Type `Status` of contract.go. -/
structure Status where
  Code : String := ""
  CodeInt : Int := 0
deriving DecidableEq, Repr

/-- Type `Operation` of contract.go; the zero value is the default of every field. -/
structure Operation (Any : Type) where
  Method : String := ""
  Path : String := ""
  Headers : List Header := []
  BulkId : String := ""
  Body : Option Any := none
  Status : Status := {}
deriving DecidableEq, Repr

/-- Type `BatchPayload` of contract.go; `FailOnErrors` is a `*uint`. -/
structure BatchPayload (Any : Type) where
  FailOnErrors : Option Nat := none
  Operations : List (Operation Any) := []
deriving DecidableEq, Repr

/-! ## The Go library, as far as batch.go uses it -/

/-- The type `http.Header`, a `map[string][]string`, as the list of its entries. For a
response it is read in the order in which `range` visits the entries, an order the Go
runtime chooses; the keys of a map are pairwise distinct. -/
abbrev HttpHeader := List (String × List String)

/-- The method `http.Header.Add`, given the canonical form of the key: the value is
appended to the values of the key, and a key not yet there gets a new entry. -/
def headerAdd : HttpHeader → String → String → HttpHeader
  | [], k, v => [(k, [v])]
  | (k0, vs) :: rest, k, v =>
    if k0 = k then (k0, vs ++ [v]) :: rest else (k0, vs) :: headerAdd rest k v

/-- The part of `*http.Request` that batch.go sets. -/
structure Request where
  Method : String
  URL : String
  Header : HttpHeader := []
  Body : Option Bytes := none
deriving DecidableEq, Repr

/-- The part of `*http.Response` that batch.go reads; `Body` is what `io.ReadAll`
makes of the body stream. -/
structure Response where
  StatusCode : Int
  Header : HttpHeader
  Body : Except Error Bytes

/-- Function `strings.Join` of the Go library: nothing for no element, the element
itself for one, else the elements with `sep` written before each but the first. -/
def stringsJoin : List String → String → String
  | [], _ => ""
  | [e], _ => e
  | e :: rest, sep => rest.foldl (fun b s => b ++ sep ++ s) e

/-- Function `fmt.Sprint` of the Go library at an `int`: the decimal digits, after a
minus sign for a negative number. -/
def fmtSprint (n : Int) : String :=
  if n < 0 then "-" ++ Nat.repr n.natAbs else Nat.repr n.natAbs

/-- The constant `math.MaxUint32`. -/
def MaxUint32 : Int := 4294967295

/-- The conversion `int(u)` of a `uint`: the same 64 bits read in two's complement. -/
def uintToInt (u : Nat) : Int :=
  if u % 2 ^ 64 < 2 ^ 63 then ((u % 2 ^ 64 : Nat) : Int) else ((u % 2 ^ 64 : Nat) : Int) - 2 ^ 64

/-- The result of arithmetic on `int`, wrapped into the 64-bit two's complement range. -/
def wrapInt (x : Int) : Int := (x + 2 ^ 63) % 2 ^ 64 - 2 ^ 63

/-- The library calls of `doOperation` that depend on the world outside the process
or on data the executor does not look into. `σ` is the state of that world. -/
structure Net (σ : Type) (Any : Type) where
  /-- The call `http.NewRequestWithContext(ctx, method, url, nil)`. -/
  newRequestWithContext : σ → String → String → Except Error Request
  /-- The function `textproto.CanonicalMIMEHeaderKey`, applied by `Header.Add`. -/
  canonicalKey : String → String
  /-- The function `json.Marshal`. -/
  jsonMarshal : Any → Except Error Bytes
  /-- The call `client.Do(req)` followed by `io.ReadAll(resp.Body)`. -/
  clientDo : σ → Request → σ × Except Error Response
  /-- The function `json.Unmarshal` into a fresh `interface{}`. -/
  jsonUnmarshal : Bytes → Except Error Any

/-! ## batch.go -/

/-- The constant `maximumOperation`. -/
def maximumOperation : Nat := 1024

/-- Type `batch` of batch.go. The logger and the trace hook act on the world; the hook
may also change the header map it is handed. -/
structure Batch (σ : Type) where
  basePath : String
  logger : Option (σ → String → List String → σ) := none
  trace : Option (σ → HttpHeader → σ × HttpHeader) := none

/-- The state a call of `Process` runs in: the world, and the ghost log of the
operations handed to `doOperation` so far, oldest first. -/
structure Sys (σ : Type) (Any : Type) where
  world : σ
  dispatched : List (Operation Any) := []
deriving DecidableEq, Repr

/-- Method `infow` of batch.go: the logger is called when there is one. -/
def infow {σ : Type} (b : Batch σ) (w : σ) (msg : String) (keysAndValues : List String) : σ :=
  match b.logger with
  | some l => l w msg keysAndValues
  | none => w

/-- The lines of `doOperation` under "Prepare the request": every header of the
operation is added in order, then the body, if any, is marshalled and attached; an
error of `json.Marshal` is dropped and leaves an empty body. -/
def prepareRequest {σ Any : Type} (net : Net σ Any) (operation : Operation Any)
    (req : Request) : Request :=
  let req := operation.Headers.foldl
    (fun r aHeader =>
      { r with Header := headerAdd r.Header (net.canonicalKey aHeader.Name) aHeader.Value }) req
  match operation.Body with
  | none => req
  | some body =>
    match net.jsonMarshal body with
    | .ok rawBody => { req with Body := some rawBody }
    | .error _ => { req with Body := some [] }

/-- The lines of `doOperation` under "Prepare the response", up to the body: status
code as number and as string, and one result header per entry of the header map. -/
def prepareResponse {Any : Type} (result : Operation Any) (resp : Response) : Operation Any :=
  let result := { result with
    Status := { result.Status with CodeInt := resp.StatusCode } }
  let result := { result with
    Status := { result.Status with Code := fmtSprint resp.StatusCode } }
  resp.Header.foldl
    (fun r kv => { r with Headers := r.Headers ++ [{ Name := kv.1, Value := stringsJoin kv.2 "," }] })
    result

/-- The lines of `doOperation` from the resolution of the address to the log entry
before the send: the request that is about to be sent and the world it is sent in, or
the error of the construction of the request. -/
def buildRequest {σ Any : Type} (b : Batch σ) (net : Net σ Any) (w : σ)
    (operation : Operation Any) : Except Error (σ × Request) :=
  let path := b.basePath ++ operation.Path
  match net.newRequestWithContext w operation.Method path with
  | .error err => .error err
  | .ok req =>
    let req := prepareRequest net operation req
    let traced : σ × HttpHeader :=
      match b.trace with
      | some tracer => tracer w req.Header
      | none => (w, req.Header)
    let req := { req with Header := traced.2 }
    let w := infow b traced.1 "Sending request" ["path", path, "method", operation.Method]
    .ok (w, req)

/-- Method `doOperation` of batch.go. -/
def doOperation {σ Any : Type} (b : Batch σ) (net : Net σ Any) (s : Sys σ Any)
    (operation : Operation Any) : Sys σ Any × Operation Any × Option Error :=
  let s : Sys σ Any := { s with dispatched := s.dispatched ++ [operation] }
  let result : Operation Any := {}
  match buildRequest b net s.world operation with
  | .error err => (s, result, some err)
  | .ok (w, req) =>
    match net.clientDo w req with
    | (w, .error err) => ({ s with world := w }, result, some err)
    | (w, .ok resp) =>
      let s : Sys σ Any := { s with world := w }
      let result := prepareResponse result resp
      match resp.Body with
      | .error err => (s, result, some err)
      | .ok responseBody =>
        match net.jsonUnmarshal responseBody with
        | .error err => (s, result, some err)
        | .ok rawResponse => (s, { result with Body := some rawResponse }, none)

/-- The `for` loop of `Process`: `errorCount` and `result` are the variables of that
name, the list is what is left of `operations.Operations`. -/
def processLoop {σ Any : Type} (b : Batch σ) (net : Net σ Any) (errorTolerance : Int) :
    List (Operation Any) → Int → BatchPayload Any → Sys σ Any →
      Sys σ Any × BatchPayload Any × Option Error
  | [], _, result, s => (s, result, none)
  | anOperation :: rest, errorCount, result, s =>
    let r := doOperation b net s anOperation
    let response := r.2.1
    let err := r.2.2
    if err ≠ none ∨ response.Status.CodeInt > 299 then
      let errorCount := wrapInt (errorCount + 1)
      if errorTolerance ≤ errorCount then
        (r.1, result, err)
      else
        processLoop b net errorTolerance rest errorCount
          { result with Operations := result.Operations ++ [response] } r.1
    else
      processLoop b net errorTolerance rest errorCount
        { result with Operations := result.Operations ++ [response] } r.1

/-- Method `Process` of batch.go. -/
def Process {σ Any : Type} (b : Batch σ) (net : Net σ Any) (s : Sys σ Any)
    (operations : BatchPayload Any) : Sys σ Any × BatchPayload Any × Option Error :=
  let result : BatchPayload Any := {}
  if operations.Operations.length > maximumOperation then
    (s, result, some "maximum number of operations exceed")
  else
    let errorTolerance : Int :=
      match operations.FailOnErrors with
      | some f => uintToInt f
      | none => MaxUint32
    processLoop b net errorTolerance operations.Operations 0 result s

/-! ## The run of a list of operations

What the claims call "the dispatch result of the i-th operation" is the result of
`doOperation` in the state the dispatches before it have left. -/

/-- The outcomes of dispatching the operations one after the other from state `s`. -/
def dispatchRun {σ Any : Type} (b : Batch σ) (net : Net σ Any) :
    Sys σ Any → List (Operation Any) → List (Operation Any × Option Error)
  | _, [] => []
  | s, op :: rest =>
    let r := doOperation b net s op
    (r.2.1, r.2.2) :: dispatchRun b net r.1 rest

/-- The state after dispatching the operations one after the other from state `s`. -/
def sysAfter {σ Any : Type} (b : Batch σ) (net : Net σ Any) :
    Sys σ Any → List (Operation Any) → Sys σ Any
  | s, [] => s
  | s, op :: rest => sysAfter b net (doOperation b net s op).1 rest

/-- The test of the loop of `Process` on an outcome: a dispatch error, or a status
code above 299. -/
def failed {Any : Type} (r : Operation Any × Option Error) : Bool :=
  decide (r.2 ≠ none ∨ r.1.Status.CodeInt > 299)

/-- The header a result gets, by the loop over `resp.Header`, for one entry of the header map of the response. -/
def resultHeader (kv : String × List String) : Header :=
  { Name := kv.1, Value := stringsJoin kv.2 "," }

/-! ## A scripted backing service, for the concrete runs -/

/-- A backing service that answers from a script, one entry per request: `none` is
a transport error, `some c` a response with status `c`, two header names and a body
that parses. Its world is the part of the script not yet played. -/
def scriptNet : Net (List (Option Int)) String where
  newRequestWithContext := fun _ method url =>
    if method = "" then .error "net/http: invalid method" else .ok { Method := method, URL := url }
  canonicalKey := id
  jsonMarshal := fun v => .ok v.toUTF8.toList
  clientDo := fun w _ =>
    match w with
    | [] => ([], .error "connection refused")
    | none :: rest => (rest, .error "connection refused")
    | some c :: rest =>
      (rest, .ok { StatusCode := c,
                   Header := [("Content-Type", ["application/json"]), ("Vary", ["Accept", "Origin"])],
                   Body := .ok [] })
  jsonUnmarshal := fun _ => .ok "null"

/-- The executor of the concrete runs: no logger, no trace hook. -/
def scriptBatch : Batch (List (Option Int)) := { basePath := "http://backend" }

/-- The result operation `doOperation` makes of a response of the scripted service. -/
def scriptResult (code : String) (codeInt : Int) : Operation String :=
  { Headers := [⟨"Content-Type", "application/json"⟩, ⟨"Vary", "Accept,Origin"⟩],
    Body := some "null", Status := ⟨code, codeInt⟩ }

/-- A GET of the given path. -/
def getOp (path : String) : Operation String := { Method := "GET", Path := path, BulkId := "id" }

/-! # Properties -/

variable {σ Any : Type}

/-! ## Machine integers -/

theorem wrapInt_of_range (x : Int) (h0 : 0 ≤ x) (h1 : x < 2 ^ 63) : wrapInt x = x := by
  unfold wrapInt
  omega

theorem uintToInt_of_lt (n : Nat) (h : n < 2 ^ 63) : uintToInt n = (n : Int) := by
  unfold uintToInt
  have h1 : n % 2 ^ 64 = n := Nat.mod_eq_of_lt (by omega)
  rw [h1, if_pos h]

theorem uintToInt_of_ge (n : Nat) (h : 2 ^ 63 ≤ n) (h2 : n < 2 ^ 64) :
    uintToInt n = (n : Int) - 2 ^ 64 := by
  unfold uintToInt
  have h1 : n % 2 ^ 64 = n := Nat.mod_eq_of_lt h2
  rw [h1, if_neg (by omega)]

/-- Function `fmtSprint` writes an integer the way `toString` does. -/
theorem fmtSprint_eq_toString (n : Int) : fmtSprint n = toString n := by
  cases n with
  | ofNat m =>
    have h : ¬ ((Int.ofNat m) < 0) := by simp
    simp only [fmtSprint, if_neg h]
    rfl
  | negSucc m =>
    have h : (Int.negSucc m) < 0 := Int.negSucc_lt_zero m
    simp only [fmtSprint, if_pos h]
    rfl

/-! ## The dispatch of one operation -/

/-- Function `strings.Join` writes the elements in order with the separator between
them: it agrees with `String.intercalate`. -/
theorem stringsJoin_eq_intercalate (vs : List String) (sep : String) :
    stringsJoin vs sep = String.intercalate sep vs := by
  have hgo : ∀ (rest : List String) (acc : String),
      rest.foldl (fun b s => b ++ sep ++ s) acc = String.intercalate.go acc sep rest := by
    intro rest
    induction rest with
    | nil => intro acc; simp [String.intercalate.go]
    | cons a as ih => intro acc; simp [String.intercalate.go, ih]
  match vs with
  | [] => rfl
  | [e] => simp [stringsJoin, String.intercalate, String.intercalate.go]
  | e :: e2 :: rest =>
    simp only [stringsJoin, String.intercalate]
    exact hgo _ _

theorem foldl_headers (l : HttpHeader) :
    ∀ r : Operation Any,
      l.foldl (fun r kv =>
          { r with Headers := r.Headers ++ [{ Name := kv.1, Value := stringsJoin kv.2 "," }] }) r =
        { r with Headers := r.Headers ++ l.map resultHeader } := by
  induction l with
  | nil => intro r; simp
  | cons kv rest ih => intro r; simp [ih, resultHeader]

/-- What `prepareResponse` sets: the status and the headers, and nothing else. -/
theorem prepareResponse_eq (r : Operation Any) (resp : Response) :
    prepareResponse r resp =
      { r with
        Status := { Code := fmtSprint resp.StatusCode, CodeInt := resp.StatusCode },
        Headers := r.Headers ++ resp.Header.map resultHeader } := by
  unfold prepareResponse
  simp only [foldl_headers]

/-- The result operation of every dispatch has the zero value in the fields `Method`,
`Path` and `BulkId`. -/
theorem doOperation_identity_fields (b : Batch σ) (net : Net σ Any) (s : Sys σ Any)
    (op : Operation Any) :
    (doOperation b net s op).2.1.BulkId = "" ∧ (doOperation b net s op).2.1.Method = "" ∧
      (doOperation b net s op).2.1.Path = "" := by
  unfold doOperation
  dsimp only
  split
  · simp
  · split
    · simp
    · split
      · simp [prepareResponse_eq]
      · split <;> simp [prepareResponse_eq]

/-- The headers of the result when the send has obtained a response. -/
theorem doOperation_headers (b : Batch σ) (net : Net σ Any) (s : Sys σ Any)
    (op : Operation Any) (w w' : σ) (req : Request) (resp : Response)
    (hreq : buildRequest b net s.world op = .ok (w, req))
    (hdo : net.clientDo w req = (w', .ok resp)) :
    (doOperation b net s op).2.1.Headers = resp.Header.map resultHeader := by
  unfold doOperation
  dsimp only
  rw [hreq]
  dsimp only
  rw [hdo]
  dsimp only
  split
  · simp [prepareResponse_eq]
  · split <;> simp [prepareResponse_eq]

/-- In the image of a header map with pairwise distinct names, the headers of one
name are the single header made of the entry of that name. -/
theorem filter_name_of_nodup (l : HttpHeader) (hnd : (l.map Prod.fst).Nodup)
    (name : String) (values : List String) (hmem : (name, values) ∈ l) :
    (l.map resultHeader).filter (fun h => decide (h.Name = name)) =
      [resultHeader (name, values)] := by
  induction l with
  | nil => simp at hmem
  | cons kv rest ih =>
    rw [List.map_cons, List.nodup_cons] at hnd
    rcases List.mem_cons.1 hmem with h | h
    · subst h
      have hnil : (rest.map resultHeader).filter (fun h => decide (h.Name = name)) = [] := by
        rw [List.filter_eq_nil_iff]
        intro a ha
        obtain ⟨kv, hkv, rfl⟩ := List.mem_map.1 ha
        have hname : name ∉ rest.map Prod.fst := hnd.1
        have : kv.1 ≠ name := fun he => hname (List.mem_map.2 ⟨kv, hkv, he⟩)
        simpa [resultHeader] using this
      simp [List.filter_cons, resultHeader, hnil]
    · have hne : kv.1 ≠ name := by
        intro he
        exact hnd.1 (List.mem_map.2 ⟨(name, values), h, he.symm⟩)
      simp [List.filter_cons, resultHeader, hne]
      simpa [resultHeader] using ih hnd.2 h

theorem doOperation_dispatched (b : Batch σ) (net : Net σ Any) (s : Sys σ Any)
    (op : Operation Any) : (doOperation b net s op).1.dispatched = s.dispatched ++ [op] := by
  unfold doOperation
  dsimp only
  split
  · rfl
  · split
    · rfl
    · split
      · rfl
      · split <;> rfl

theorem sysAfter_dispatched (b : Batch σ) (net : Net σ Any) (ops : List (Operation Any)) :
    ∀ s : Sys σ Any, (sysAfter b net s ops).dispatched = s.dispatched ++ ops := by
  induction ops with
  | nil => intro s; simp [sysAfter]
  | cons op rest ih =>
    intro s
    simp [sysAfter, ih, doOperation_dispatched]

theorem dispatchRun_length (b : Batch σ) (net : Net σ Any) (ops : List (Operation Any)) :
    ∀ s : Sys σ Any, (dispatchRun b net s ops).length = ops.length := by
  induction ops with
  | nil => intro s; simp [dispatchRun]
  | cons op rest ih => intro s; simp [dispatchRun, ih]

theorem failed_iff (r : Operation Any × Option Error) :
    failed r = true ↔ (r.2 ≠ none ∨ r.1.Status.CodeInt > 299) := by
  simp [failed]

/-! ## The loop of `Process` -/

/-- The loop runs to the end when the failures stay below the tolerance: with
`errorCount` failures counted so far, the tolerance can only trip at a count of at
least `max errorTolerance (errorCount + 1)`. -/
theorem processLoop_complete (b : Batch σ) (net : Net σ Any) (tol : Int)
    (ops : List (Operation Any)) :
    ∀ (ec : Int) (result : BatchPayload Any) (s : Sys σ Any),
      0 ≤ ec → ec + ops.length < 2 ^ 63 →
      ec + ((dispatchRun b net s ops).countP failed : Nat) < max tol (ec + 1) →
      processLoop b net tol ops ec result s =
        (sysAfter b net s ops,
         { result with
           Operations := result.Operations ++ (dispatchRun b net s ops).map Prod.fst },
         none) := by
  induction ops with
  | nil => intro ec result s _ _ _; simp [processLoop, sysAfter, dispatchRun]
  | cons op rest ih =>
    intro ec result s h0 hlen hcnt
    simp only [List.length_cons, Nat.cast_add, Nat.cast_one] at hlen
    simp only [dispatchRun, List.countP_cons] at hcnt
    by_cases hf : failed ((doOperation b net s op).2.1, (doOperation b net s op).2.2) = true
    · have hcond := (failed_iff _).1 hf
      simp only [hf, if_true, Nat.cast_add, Nat.cast_one] at hcnt
      have hw : wrapInt (ec + 1) = ec + 1 := wrapInt_of_range _ (by omega) (by omega)
      have hnt : ¬ tol ≤ ec + 1 := by omega
      rw [processLoop]
      simp only [hw]
      rw [if_pos hcond, if_neg hnt, ih (ec + 1) _ _ (by omega) (by omega) (by omega)]
      simp [sysAfter, dispatchRun]
    · have hcond : ¬ ((doOperation b net s op).2.2 ≠ none ∨
          (doOperation b net s op).2.1.Status.CodeInt > 299) := fun h => hf ((failed_iff _).2 h)
      simp only [hf, Nat.cast_add] at hcnt
      rw [processLoop]
      simp only []
      rw [if_neg hcond, ih ec _ _ h0 (by omega) (by simpa using hcnt)]
      simp [sysAfter, dispatchRun]

/-- The loop stops at the operation of index `k` when that operation fails and its
failure brings the count to `max errorTolerance (errorCount + 1)`: the operations up
to `k` have been dispatched, the results before `k` are returned, with the error of
the dispatch of `k`. -/
theorem processLoop_abort (b : Batch σ) (net : Net σ Any) (tol : Int)
    (ops : List (Operation Any)) :
    ∀ (ec : Int) (result : BatchPayload Any) (s : Sys σ Any) (k : Nat)
      (o : Operation Any × Option Error),
      0 ≤ ec → ec + ops.length < 2 ^ 63 →
      (dispatchRun b net s ops)[k]? = some o → failed o = true →
      ec + (((dispatchRun b net s ops).take k).countP failed : Nat) + 1 = max tol (ec + 1) →
      processLoop b net tol ops ec result s =
        (sysAfter b net s (ops.take (k + 1)),
         { result with
           Operations :=
             result.Operations ++ ((dispatchRun b net s ops).take k).map Prod.fst },
         o.2) := by
  induction ops with
  | nil => intro ec result s k o _ _ hk; simp [dispatchRun] at hk
  | cons op rest ih =>
    intro ec result s k o h0 hlen hk hfo hcnt
    simp only [List.length_cons, Nat.cast_add, Nat.cast_one] at hlen
    cases k with
    | zero =>
      simp only [dispatchRun, List.getElem?_cons_zero, Option.some.injEq] at hk
      subst hk
      have hcond := (failed_iff _).1 hfo
      simp only [List.take_zero, List.countP_nil, Nat.cast_zero, add_zero] at hcnt
      have hw : wrapInt (ec + 1) = ec + 1 := wrapInt_of_range _ (by omega) (by omega)
      have ht : tol ≤ ec + 1 := by omega
      rw [processLoop]
      simp only [hw]
      rw [if_pos hcond, if_pos ht]
      simp [sysAfter]
    | succ k =>
      simp only [dispatchRun, List.getElem?_cons_succ] at hk
      simp only [dispatchRun, List.take_succ_cons, List.countP_cons] at hcnt
      by_cases hf : failed ((doOperation b net s op).2.1, (doOperation b net s op).2.2) = true
      · have hcond := (failed_iff _).1 hf
        simp only [hf, if_true, Nat.cast_add, Nat.cast_one] at hcnt
        have hw : wrapInt (ec + 1) = ec + 1 := wrapInt_of_range _ (by omega) (by omega)
        have hnt : ¬ tol ≤ ec + 1 := by omega
        rw [processLoop]
        simp only [hw]
        rw [if_pos hcond, if_neg hnt,
          ih (ec + 1) _ _ k o (by omega) (by omega) hk hfo (by omega)]
        simp [sysAfter, dispatchRun]
      · have hcond : ¬ ((doOperation b net s op).2.2 ≠ none ∨
            (doOperation b net s op).2.1.Status.CodeInt > 299) :=
          fun h => hf ((failed_iff _).2 h)
        simp only [hf, Nat.cast_add] at hcnt
        rw [processLoop]
        simp only []
        rw [if_neg hcond, ih ec _ _ k o h0 (by omega) hk hfo (by simpa using hcnt)]
        simp [sysAfter, dispatchRun]

/-- With tolerance 0 and with tolerance 1 the loop started at count 0 does the same. -/
theorem processLoop_zero_one (b : Batch σ) (net : Net σ Any) (ops : List (Operation Any)) :
    ∀ (result : BatchPayload Any) (s : Sys σ Any),
      processLoop b net 0 ops 0 result s = processLoop b net 1 ops 0 result s := by
  have hw : wrapInt (0 + 1) = 1 := by decide
  induction ops with
  | nil => intro result s; simp [processLoop]
  | cons op rest ih =>
    intro result s
    rw [processLoop, processLoop]
    simp only [hw]
    split
    · simp
    · exact ih _ _

/-- Every element of the result list of the loop is a result of `doOperation` or was
in the list before: a property of both holds of every element. -/
theorem processLoop_forall (b : Batch σ) (net : Net σ Any) (tol : Int)
    (P : Operation Any → Prop) (hP : ∀ (s : Sys σ Any) op, P (doOperation b net s op).2.1)
    (ops : List (Operation Any)) :
    ∀ (ec : Int) (result : BatchPayload Any) (s : Sys σ Any),
      (∀ r ∈ result.Operations, P r) →
      ∀ r ∈ (processLoop b net tol ops ec result s).2.1.Operations, P r := by
  induction ops with
  | nil => intro ec result s h; simpa [processLoop] using h
  | cons op rest ih =>
    intro ec result s h
    have hnext : ∀ r ∈ result.Operations ++ [(doOperation b net s op).2.1], P r := by
      intro r hr
      rcases List.mem_append.1 hr with hr | hr
      · exact h r hr
      · rw [List.mem_singleton.1 hr]; exact hP s op
    rw [processLoop]
    dsimp only
    split
    · split
      · exact h
      · exact ih _ _ _ hnext
    · exact ih _ _ _ hnext

/-! ## The claims -/

/-- C1: a payload with more than 1024 operations is rejected: `Process` returns a
non-nil error and the empty result, and dispatches nothing (the state, ghost log of
dispatches included, is the one it was called in). -/
theorem C1_over_cap_rejected (b : Batch σ) (net : Net σ Any) (s : Sys σ Any)
    (p : BatchPayload Any) (h : 1024 < p.Operations.length) :
    (Process b net s p).2.2 ≠ none ∧
    (Process b net s p).2.1 = {} ∧
    (Process b net s p).2.1.Operations = [] ∧
    (Process b net s p).1 = s ∧
    (Process b net s p).1.dispatched = s.dispatched := by
  have h1 : p.Operations.length > maximumOperation := h
  simp [Process, h1]

/-- Witness of C1 at a payload of 1025 operations. -/
theorem C1_over_cap_rejected_witness :
    1024 < (({ FailOnErrors := some 5, Operations := List.replicate 1025 (getOp "/a") } :
      BatchPayload String)).Operations.length ∧
    (Process scriptBatch scriptNet ⟨[some 200], []⟩
      { FailOnErrors := some 5, Operations := List.replicate 1025 (getOp "/a") }).2.2 ≠ none :=
  ⟨by rw [List.length_replicate]; omega,
   (C1_over_cap_rejected scriptBatch scriptNet ⟨[some 200], []⟩
      { FailOnErrors := some 5, Operations := List.replicate 1025 (getOp "/a") }
      (by rw [List.length_replicate]; omega)).1⟩

/-- C2: with at most 1024 operations and `failOnErrors` absent, whatever the backend
does, `Process` dispatches every operation once and in input order, returns a nil error
and a result list as long as the input whose elements are, in order, the results of
the dispatches. -/
theorem C2_unbounded_tolerance_completes (b : Batch σ) (net : Net σ Any) (s : Sys σ Any)
    (p : BatchPayload Any) (hlen : p.Operations.length ≤ 1024) (hf : p.FailOnErrors = none) :
    (Process b net s p).2.2 = none ∧
    (Process b net s p).2.1.Operations = (dispatchRun b net s p.Operations).map Prod.fst ∧
    (Process b net s p).2.1.Operations.length = p.Operations.length ∧
    (Process b net s p).1 = sysAfter b net s p.Operations ∧
    (Process b net s p).1.dispatched = s.dispatched ++ p.Operations := by
  have h1 : ¬ p.Operations.length > maximumOperation := by
    simp only [maximumOperation]; omega
  have hc := List.countP_le_length failed (l := dispatchRun b net s p.Operations)
  rw [dispatchRun_length] at hc
  have hrun : Process b net s p =
      (sysAfter b net s p.Operations,
       { FailOnErrors := none,
         Operations := (dispatchRun b net s p.Operations).map Prod.fst }, none) := by
    unfold Process
    simp only [if_neg h1, hf]
    rw [processLoop_complete b net MaxUint32 p.Operations 0 _ s (le_refl 0) (by omega)
      (by simp only [MaxUint32]; omega)]
    simp
  rw [hrun]
  simp [sysAfter_dispatched, dispatchRun_length]

/-- Witness of C2: two operations, the first answered with status 500. -/
theorem C2_unbounded_tolerance_completes_witness :
    (Process scriptBatch scriptNet ⟨[some 500, none], []⟩
      { FailOnErrors := none, Operations := [getOp "/a", getOp "/b"] }).2.1.Operations.length = 2 :=
  (C2_unbounded_tolerance_completes scriptBatch scriptNet ⟨[some 500, none], []⟩
    { FailOnErrors := none, Operations := [getOp "/a", getOp "/b"] } (by decide) rfl).2.2.1

/-- C3 as stated fails: with `failOnErrors = 0` and a first operation answered with
status 500 (and a body that parses), `Process` returns no result at all and a nil
error, not one result and a non-nil error. -/
theorem C3_counterexample :
    (doOperation scriptBatch scriptNet ⟨[some 500], []⟩ (getOp "/a")).2.1.Status.CodeInt = 500 ∧
    (Process scriptBatch scriptNet ⟨[some 500], []⟩
      { FailOnErrors := some 0, Operations := [getOp "/a"] }).2.1.Operations = [] ∧
    (Process scriptBatch scriptNet ⟨[some 500], []⟩
      { FailOnErrors := some 0, Operations := [getOp "/a"] }).2.2 = none ∧
    ¬ ((Process scriptBatch scriptNet ⟨[some 500], []⟩
        { FailOnErrors := some 0, Operations := [getOp "/a"] }).2.1.Operations.length = 1 ∧
       (Process scriptBatch scriptNet ⟨[some 500], []⟩
        { FailOnErrors := some 0, Operations := [getOp "/a"] }).2.2 ≠ none) := by
  decide

/-- C3, amended: with `failOnErrors = 0` and a non-empty list of at most 1024
operations whose first operation is answered with a status above 299, `Process`
returns after exactly that one dispatch, with an empty result list (the result of the
failed operation is not in it) and, as its error, the error of that dispatch. -/
theorem C3_abort_on_first_failure (b : Batch σ) (net : Net σ Any) (s : Sys σ Any)
    (p : BatchPayload Any) (op : Operation Any) (rest : List (Operation Any))
    (hf : p.FailOnErrors = some 0) (hops : p.Operations = op :: rest)
    (hlen : p.Operations.length ≤ 1024)
    (hstatus : (doOperation b net s op).2.1.Status.CodeInt > 299) :
    (Process b net s p).1 = (doOperation b net s op).1 ∧
    (Process b net s p).1.dispatched = s.dispatched ++ [op] ∧
    (Process b net s p).2.1.Operations = [] ∧
    (Process b net s p).2.2 = (doOperation b net s op).2.2 := by
  have h1 : ¬ p.Operations.length > maximumOperation := by
    simp only [maximumOperation]; omega
  have h0 : uintToInt 0 = 0 := by decide
  have hw : wrapInt (0 + 1) = 1 := by decide
  have hrun : Process b net s p =
      ((doOperation b net s op).1, {}, (doOperation b net s op).2.2) := by
    unfold Process
    simp only [if_neg h1, hf, h0]
    rw [hops, processLoop]
    simp only [hw]
    rw [if_pos (Or.inr hstatus), if_pos (by decide)]
  rw [hrun]
  simp [doOperation_dispatched]

/-- Witness of C3 (amended): a first operation answered with status 500. -/
theorem C3_abort_on_first_failure_witness :
    (Process scriptBatch scriptNet ⟨[some 500, some 200], []⟩
      { FailOnErrors := some 0, Operations := [getOp "/a", getOp "/b"] }).2.1.Operations = [] :=
  (C3_abort_on_first_failure scriptBatch scriptNet ⟨[some 500, some 200], []⟩
    { FailOnErrors := some 0, Operations := [getOp "/a", getOp "/b"] } (getOp "/a") [getOp "/b"]
    rfl rfl (by decide) (by decide)).2.2.1

/-- C4 as stated fails: with `failOnErrors = 2` and operations A, B, C, D answered
with 500, 200, 404, 200, A and C fail and B and D do not, and `Process` returns the
two results of A and B and a nil error, not three results and a non-nil error. -/
theorem C4_counterexample :
    (dispatchRun scriptBatch scriptNet ⟨[some 500, some 200, some 404, some 200], []⟩
      [getOp "/a", getOp "/b", getOp "/c", getOp "/d"]).map failed = [true, false, true, false] ∧
    (Process scriptBatch scriptNet ⟨[some 500, some 200, some 404, some 200], []⟩
      { FailOnErrors := some 2,
        Operations := [getOp "/a", getOp "/b", getOp "/c", getOp "/d"] }).2.1.Operations =
      [scriptResult "500" 500, scriptResult "200" 200] ∧
    (Process scriptBatch scriptNet ⟨[some 500, some 200, some 404, some 200], []⟩
      { FailOnErrors := some 2,
        Operations := [getOp "/a", getOp "/b", getOp "/c", getOp "/d"] }).2.2 = none ∧
    ¬ ((Process scriptBatch scriptNet ⟨[some 500, some 200, some 404, some 200], []⟩
        { FailOnErrors := some 2,
          Operations := [getOp "/a", getOp "/b", getOp "/c", getOp "/d"] }).2.1.Operations.length = 3 ∧
       (Process scriptBatch scriptNet ⟨[some 500, some 200, some 404, some 200], []⟩
        { FailOnErrors := some 2,
          Operations := [getOp "/a", getOp "/b", getOp "/c", getOp "/d"] }).2.2 ≠ none) := by
  decide

/-- C4, amended: with `failOnErrors = 2` and operations A, B, C, D where A and C fail
(dispatch error or status code above 299) and B does not, `Process` stops at C: it
has dispatched A, B and C and never D, and returns the two results of A and B
together with the error of the dispatch of C. -/
theorem C4_abort_at_second_failure (b : Batch σ) (net : Net σ Any) (s : Sys σ Any)
    (A B C D : Operation Any)
    (hA : failed (doOperation b net s A).2 = true)
    (hB : failed (doOperation b net (doOperation b net s A).1 B).2 = false)
    (hC : failed (doOperation b net (doOperation b net (doOperation b net s A).1 B).1 C).2 = true) :
    (Process b net s { FailOnErrors := some 2, Operations := [A, B, C, D] }).1 =
      (doOperation b net (doOperation b net (doOperation b net s A).1 B).1 C).1 ∧
    (Process b net s { FailOnErrors := some 2, Operations := [A, B, C, D] }).1.dispatched =
      s.dispatched ++ [A, B, C] ∧
    (Process b net s { FailOnErrors := some 2, Operations := [A, B, C, D] }).2.1.Operations =
      [(doOperation b net s A).2.1, (doOperation b net (doOperation b net s A).1 B).2.1] ∧
    (Process b net s { FailOnErrors := some 2, Operations := [A, B, C, D] }).2.2 =
      (doOperation b net (doOperation b net (doOperation b net s A).1 B).1 C).2.2 := by
  have h2 : uintToInt 2 = 2 := by decide
  have hw1 : wrapInt (0 + 1) = 1 := by decide
  have hw2 : wrapInt (1 + 1) = 2 := by decide
  have hA1 := (failed_iff _).1 hA
  have hB1 : ¬ ((doOperation b net (doOperation b net s A).1 B).2.2 ≠ none ∨
      (doOperation b net (doOperation b net s A).1 B).2.1.Status.CodeInt > 299) := by
    intro h
    rw [(failed_iff _).2 h] at hB
    exact Bool.noConfusion hB
  have hC1 := (failed_iff _).1 hC
  have hrun : Process b net s { FailOnErrors := some 2, Operations := [A, B, C, D] } =
      ((doOperation b net (doOperation b net (doOperation b net s A).1 B).1 C).1,
       { FailOnErrors := none,
         Operations :=
           [(doOperation b net s A).2.1, (doOperation b net (doOperation b net s A).1 B).2.1] },
       (doOperation b net (doOperation b net (doOperation b net s A).1 B).1 C).2.2) := by
    unfold Process
    rw [if_neg (by simp [maximumOperation])]
    simp only [h2]
    rw [processLoop]
    simp only [hw1]
    rw [if_pos hA1, if_neg (by decide), processLoop]
    simp only []
    rw [if_neg hB1, processLoop]
    simp only [hw2]
    rw [if_pos hC1, if_pos (by decide)]
    simp
  rw [hrun]
  simp [doOperation_dispatched]

/-- Witness of C4 (amended): A and C answered with 500 and a transport error. -/
theorem C4_abort_at_second_failure_witness :
    (Process scriptBatch scriptNet ⟨[some 500, some 200, none, some 200], []⟩
      { FailOnErrors := some 2,
        Operations := [getOp "/a", getOp "/b", getOp "/c", getOp "/d"] }).1.dispatched =
      [] ++ [getOp "/a", getOp "/b", getOp "/c"] :=
  (C4_abort_at_second_failure scriptBatch scriptNet ⟨[some 500, some 200, none, some 200], []⟩
    (getOp "/a") (getOp "/b") (getOp "/c") (getOp "/d") (by decide) (by decide) (by decide)).2.1

/-- The part of C5 the code does: a tolerance `n` below `2^63` never trips while fewer
than `n` operations fail. -/
theorem Process_below_tolerance (b : Batch σ) (net : Net σ Any) (s : Sys σ Any)
    (p : BatchPayload Any) (n : Nat)
    (hlen : p.Operations.length ≤ 1024) (hf : p.FailOnErrors = some n) (hn : n < 2 ^ 63)
    (hcnt : (dispatchRun b net s p.Operations).countP failed < n) :
    Process b net s p =
      (sysAfter b net s p.Operations,
       { FailOnErrors := none,
         Operations := (dispatchRun b net s p.Operations).map Prod.fst }, none) := by
  have h1 : ¬ p.Operations.length > maximumOperation := by
    simp only [maximumOperation]; omega
  unfold Process
  simp only [if_neg h1, hf, uintToInt_of_lt n hn]
  rw [processLoop_complete b net n p.Operations 0 _ s (le_refl 0) (by omega) (by omega)]
  simp

/-- C5 fails on the code at `failOnErrors = 2^63`: the conversion to `int` gives
`-2^63`, and with one failed operation out of two (fewer than the tolerance) `Process`
stops at the first one, with an empty result and the second operation not dispatched. -/
theorem C5_wrapped_tolerance_trips :
    uintToInt (2 ^ 63) = -(2 ^ 63) ∧
    (dispatchRun scriptBatch scriptNet ⟨[some 500, some 200], []⟩
      [getOp "/a", getOp "/b"]).countP failed = 1 ∧
    (Process scriptBatch scriptNet ⟨[some 500, some 200], []⟩
      { FailOnErrors := some (2 ^ 63), Operations := [getOp "/a", getOp "/b"] }).2.1.Operations = [] ∧
    (Process scriptBatch scriptNet ⟨[some 500, some 200], []⟩
      { FailOnErrors := some (2 ^ 63), Operations := [getOp "/a", getOp "/b"] }).1.dispatched =
        [getOp "/a"] := by
  decide

/-- C6: the status of the result of a dispatch. When the construction of the request
fails, or the send returns an error, the result has its status unset (`codeInt = 0`,
`code = ""`), no headers and no body, and the dispatch returns that error. When the
send obtains a response with status `s`, the result has `codeInt = s` and `code` the
decimal string of `s`, whether the body is then read and parsed (nil error, body set)
or the read or the parse fails (that error is returned, no body). -/
theorem C6_status_of_dispatch (b : Batch σ) (net : Net σ Any) (s : Sys σ Any)
    (op : Operation Any) :
    match buildRequest b net s.world op with
    | .error e =>
      (doOperation b net s op).2.1.Status = { Code := "", CodeInt := 0 } ∧
      (doOperation b net s op).2.1.Headers = [] ∧
      (doOperation b net s op).2.1.Body = none ∧
      (doOperation b net s op).2.2 = some e ∧ (doOperation b net s op).2.2 ≠ none
    | .ok (w, req) =>
      match net.clientDo w req with
      | (_, .error e) =>
        (doOperation b net s op).2.1.Status = { Code := "", CodeInt := 0 } ∧
        (doOperation b net s op).2.1.Headers = [] ∧
        (doOperation b net s op).2.1.Body = none ∧
        (doOperation b net s op).2.2 = some e ∧ (doOperation b net s op).2.2 ≠ none
      | (_, .ok resp) =>
        (doOperation b net s op).2.1.Status.CodeInt = resp.StatusCode ∧
        (doOperation b net s op).2.1.Status.Code = fmtSprint resp.StatusCode ∧
        match resp.Body with
        | .error e =>
          (doOperation b net s op).2.2 = some e ∧ (doOperation b net s op).2.1.Body = none
        | .ok responseBody =>
          match net.jsonUnmarshal responseBody with
          | .error e =>
            (doOperation b net s op).2.2 = some e ∧ (doOperation b net s op).2.1.Body = none
          | .ok v =>
            (doOperation b net s op).2.2 = none ∧ (doOperation b net s op).2.1.Body = some v := by
  unfold doOperation
  dsimp only
  cases buildRequest b net s.world op with
  | error e => simp
  | ok wr =>
    obtain ⟨w, req⟩ := wr
    dsimp only
    cases net.clientDo w req with
    | mk w' out =>
      cases out with
      | error e => simp
      | ok resp =>
        dsimp only
        cases resp.Body with
        | error e => simp [prepareResponse_eq]
        | ok responseBody =>
          dsimp only
          cases net.jsonUnmarshal responseBody with
          | error e => simp [prepareResponse_eq]
          | ok v => simp [prepareResponse_eq]

/-- C7: when the send has obtained a response whose header map has pairwise distinct
names (as every map has), the result has one header per entry of the map, in the order
of the iteration, with the values of the entry joined by a comma; there are as many
result headers as distinct names; the headers of a given name are exactly one; and a
header with a single value is copied unchanged. -/
theorem C7_headers_joined (b : Batch σ) (net : Net σ Any) (s : Sys σ Any)
    (op : Operation Any) (w w' : σ) (req : Request) (resp : Response)
    (hreq : buildRequest b net s.world op = .ok (w, req))
    (hdo : net.clientDo w req = (w', .ok resp))
    (hmap : (resp.Header.map Prod.fst).Nodup) :
    (doOperation b net s op).2.1.Headers =
      resp.Header.map (fun kv => { Name := kv.1, Value := String.intercalate "," kv.2 }) ∧
    (doOperation b net s op).2.1.Headers.length = (resp.Header.map Prod.fst).toFinset.card ∧
    (∀ name values, (name, values) ∈ resp.Header →
      (doOperation b net s op).2.1.Headers.filter (fun h => decide (h.Name = name)) =
        [{ Name := name, Value := String.intercalate "," values }]) ∧
    (∀ name v, (name, [v]) ∈ resp.Header →
      ({ Name := name, Value := v } : Header) ∈ (doOperation b net s op).2.1.Headers) := by
  have hh := doOperation_headers b net s op w w' req resp hreq hdo
  have hfun : resultHeader =
      fun kv => { Name := kv.1, Value := String.intercalate "," kv.2 } := by
    funext kv
    simp [resultHeader, stringsJoin_eq_intercalate]
  refine ⟨by rw [hh, hfun], ?_, ?_, ?_⟩
  · rw [hh, List.toFinset_card_of_nodup hmap]
    simp
  · intro name values hmem
    rw [hh, filter_name_of_nodup resp.Header hmap name values hmem]
    simp [resultHeader, stringsJoin_eq_intercalate]
  · intro name v hmem
    rw [hh]
    exact List.mem_map.2 ⟨(name, [v]), hmem, by simp [resultHeader, stringsJoin]⟩

/-- Witness of C7: the response of the scripted service, with a one-valued and a
two-valued header. -/
theorem C7_headers_joined_witness :
    (doOperation scriptBatch scriptNet ⟨[some 200], []⟩ (getOp "/a")).2.1.Headers =
      [⟨"Content-Type", String.intercalate "," ["application/json"]⟩,
       ⟨"Vary", String.intercalate "," ["Accept", "Origin"]⟩] :=
  (C7_headers_joined scriptBatch scriptNet ⟨[some 200], []⟩ (getOp "/a") [some 200] []
    { Method := "GET", URL := "http://backend/a" }
    { StatusCode := 200,
      Header := [("Content-Type", ["application/json"]), ("Vary", ["Accept", "Origin"])],
      Body := .ok [] }
    rfl rfl (by decide)).1

/-- C8: the result operation of a dispatch has `bulk_id`, `method` and `path` empty,
whatever the input operation and the backend; so has every element of the result
list of `Process`. -/
theorem C8_identity_fields_empty (b : Batch σ) (net : Net σ Any) (s : Sys σ Any)
    (op : Operation Any) (p : BatchPayload Any) :
    ((doOperation b net s op).2.1.BulkId = "" ∧ (doOperation b net s op).2.1.Method = "" ∧
      (doOperation b net s op).2.1.Path = "") ∧
    ∀ r ∈ (Process b net s p).2.1.Operations, r.BulkId = "" ∧ r.Method = "" ∧ r.Path = "" := by
  refine ⟨doOperation_identity_fields b net s op, ?_⟩
  unfold Process
  dsimp only
  split
  · simp
  · exact processLoop_forall b net _ _ (fun s op => doOperation_identity_fields b net s op)
      _ _ _ _ (by simp)

/-- C9: with at most 1024 operations and `failOnErrors = n` below `2^63`, let
`m = max n 1`. When the operation of index `k` fails and is the `m`-th to fail
(`m - 1` failures among the outcomes before it), `Process` dispatches exactly the
operations of index `0` to `k`, returns the `k` results of the dispatches before `k`,
and returns the error of the dispatch of `k` (which is nil when that dispatch failed
through its status code alone). -/
theorem C9_abort_at_mth_failure (b : Batch σ) (net : Net σ Any) (s : Sys σ Any)
    (p : BatchPayload Any) (n k : Nat) (o : Operation Any × Option Error)
    (hlen : p.Operations.length ≤ 1024) (hf : p.FailOnErrors = some n) (hn : n < 2 ^ 63)
    (hk : (dispatchRun b net s p.Operations)[k]? = some o) (hfail : failed o = true)
    (hm : ((dispatchRun b net s p.Operations).take k).countP failed + 1 = max n 1) :
    (Process b net s p).1 = sysAfter b net s (p.Operations.take (k + 1)) ∧
    (Process b net s p).1.dispatched = s.dispatched ++ p.Operations.take (k + 1) ∧
    (Process b net s p).2.1.Operations =
      ((dispatchRun b net s p.Operations).take k).map Prod.fst ∧
    (Process b net s p).2.1.Operations.length = k ∧
    (Process b net s p).2.2 = o.2 := by
  have h1 : ¬ p.Operations.length > maximumOperation := by
    simp only [maximumOperation]; omega
  have hkl : k < p.Operations.length := by
    have := (List.getElem?_eq_some_iff.1 hk).1
    rwa [dispatchRun_length] at this
  have hrun : Process b net s p =
      (sysAfter b net s (p.Operations.take (k + 1)),
       { FailOnErrors := none,
         Operations := ((dispatchRun b net s p.Operations).take k).map Prod.fst }, o.2) := by
    unfold Process
    simp only [if_neg h1, hf, uintToInt_of_lt n hn]
    rw [processLoop_abort b net n p.Operations 0 _ s k o (le_refl 0) (by omega) hk hfail
      (by omega)]
    simp
  rw [hrun]
  simp [sysAfter_dispatched, dispatchRun_length]
  omega

/-- Witness of C9: tolerance 2, failures at the indices 0 and 2, a fourth operation. -/
theorem C9_abort_at_mth_failure_witness :
    (Process scriptBatch scriptNet ⟨[some 404, some 200, some 500, some 200], []⟩
      { FailOnErrors := some 2,
        Operations := [getOp "/a", getOp "/b", getOp "/c", getOp "/d"] }).2.1.Operations.length = 2 :=
  (C9_abort_at_mth_failure scriptBatch scriptNet ⟨[some 404, some 200, some 500, some 200], []⟩
    { FailOnErrors := some 2, Operations := [getOp "/a", getOp "/b", getOp "/c", getOp "/d"] }
    2 2 (scriptResult "500" 500, none)
    (by decide) rfl (by decide) (by decide) (by decide) (by decide)).2.2.2.1

/-- C10: `Process` with `failOnErrors = 0` and with `failOnErrors = 1` end in the same
state (the same dispatches), with the same result and the same error, for every list
of operations and every backend. -/
theorem C10_zero_and_one_agree (b : Batch σ) (net : Net σ Any) (s : Sys σ Any)
    (ops : List (Operation Any)) :
    Process b net s { FailOnErrors := some 0, Operations := ops } =
      Process b net s { FailOnErrors := some 1, Operations := ops } := by
  have h0 : uintToInt 0 = 0 := by decide
  have h1 : uintToInt 1 = 1 := by decide
  unfold Process
  simp only [h0, h1]
  split
  · rfl
  · exact processLoop_zero_one b net ops _ s

end BatchApi
